import Mathlib

/-!
Shallow embedding of the sol-bot trading program (src/bot.js) and proofs of
the specified properties of its market resolver, market loader, settlement
account provisioner, order submitter and retry scheduler.

External collaborators (the Solana RPC connection, the OpenBook market
decoder, the transaction confirmation service) are modelled as a `Chain`
record of response functions; every ledger interaction the program performs
is recorded in an explicit `LedgerOp` trace so that properties about the
number of scans, decodes and submitted transactions can be stated.
-/

namespace SolBot

/-- Ledger address (a base58 Solana public key). -/
structure PublicKey where
  key : String
deriving DecidableEq

/-- Raw account data as returned by getAccountInfo; the bot only observes its length. -/
structure AccountData where
  dataLength : Nat
deriving DecidableEq

/-- One entry of a getProgramAccounts scan result: an address and its data length. -/
structure Account where
  pubkey : PublicKey
  dataLength : Nat
deriving DecidableEq

/-- Decoded OpenBook market state as used by the bot: only the two mints are inspected
(src/bot.js lines 81-94, 128-129). -/
structure Market where
  baseMint : PublicKey
  quoteMint : PublicKey
deriving DecidableEq

/-- OpenBook v2 program id (src/bot.js line 30). -/
def PROGRAM_ID : PublicKey := ⟨"opnb2LAfJYbRMAHHvqjCwQxanZn7ReEHp1k81EohpZb"⟩

/-- Wrapped SOL mint, the target base mint (src/bot.js line 35). -/
def BASE_MINT : PublicKey := ⟨"So11111111111111111111111111111111111111112"⟩

/-- USDC mint, the target quote mint (src/bot.js line 36). -/
def QUOTE_MINT : PublicKey := ⟨"EPjFWdd5AufqSSqeM2qN1xzybapC8G4wEGGkZwyTDt1v"⟩

/-- SPL token program id, imported from spl-token in the source. -/
def TOKEN_PROGRAM_ID : PublicKey := ⟨"TokenkegQfeZyiNwAJbNbGKPFXCWuBvf9Ss623VQ5DA"⟩

/-- Wallet public key; the source derives it from an environment secret
(src/bot.js lines 22-23), modelled as a fixed address. -/
def walletPublicKey : PublicKey := ⟨"WaLLetPubkey1111111111111111111111111111111"⟩

/-- Order side, the string side argument of placeLimitOrder. -/
inductive Side where
  | buy
  | sell
deriving DecidableEq

/-- Argument record of market.placeOrder (src/bot.js lines 178-188). -/
structure OrderArgs where
  owner : PublicKey
  payer : PublicKey
  side : Side
  price : Rat
  size : Rat
  orderType : String
  clientOrderId : Nat
  selfTradeBehavior : String
  expiryTimestamp : Nat
deriving DecidableEq

/-- Transaction instruction; the bot only ever builds the associated token account
creation instruction (src/bot.js lines 151-159). -/
inductive Instruction where
  | createAssociatedTokenAccount (payer associatedToken owner mint tokenProgram : PublicKey)
deriving DecidableEq

/-- One ledger interaction performed by the bot, recorded in traces. -/
inductive LedgerOp where
  | filteredScan (size : Nat)
  | unfilteredScan
  | decodeLoad (addr : PublicKey)
  | getAccount (addr : PublicKey)
  | submitTx (instructions : List Instruction)
  | placeOrder (args : OrderArgs)
deriving DecidableEq

/-- Failure taxonomy of the bot; the source throws Error values with messages. -/
inductive BotError where
  | marketNotFound
  | scanFailed
  | marketAccountMissing
  | decodeFailed
  | provisionFailed
  | placeOrderFailed
deriving DecidableEq

/-- Boolean test for the error case of a result. -/
def isErr {α : Type} : Except BotError α → Bool
  | .error _ => true
  | .ok _ => false

/-- External collaborator responses: RPC scans and reads, the market decoder,
the order submission outcome, and whether the account creation transaction
confirms. -/
structure Chain where
  programAccountsBySize : Nat → Option (List Account)
  allProgramAccounts : Option (List Account)
  decodeMarket : PublicKey → Option Market
  accountInfo : PublicKey → Option AccountData
  placeOrderOutcome : Market → OrderArgs → Option String
  txOk : Bool

/-- Probe list of plausible market account sizes (src/bot.js line 44). -/
def possibleSizes : List Nat := [760, 776, 808, 824, 856]

/-- Accumulation of the size filtered scans (src/bot.js lines 47-59): a scan that
throws is caught and contributes nothing. -/
def sizeScans (chain : Chain) : List Account :=
  possibleSizes.foldl
    (fun acc size =>
      match chain.programAccountsBySize size with
      | some accounts => acc ++ accounts
      | none => acc)
    []

/-- Result of candidate gathering: the candidate list or a scan failure, plus the trace. -/
structure GatherResult where
  result : Except BotError (List Account)
  ops : List LedgerOp

/-- Candidate gathering (src/bot.js lines 44-67): the five filtered scans, then,
only when they together produced nothing, one unfiltered scan of all program
accounts. -/
def gatherCandidates (chain : Chain) : GatherResult :=
  if sizeScans chain = [] then
    match chain.allProgramAccounts with
    | some l => ⟨.ok l, possibleSizes.map LedgerOp.filteredScan ++ [.unfilteredScan]⟩
    | none => ⟨.error .scanFailed, possibleSizes.map LedgerOp.filteredScan ++ [.unfilteredScan]⟩
  else ⟨.ok (sizeScans chain), possibleSizes.map LedgerOp.filteredScan⟩

/-- Pair test of src/bot.js lines 85-94: the decoded mints equal the target pair
in either orientation. -/
def matchesPair (m : Market) : Bool :=
  decide ((m.baseMint = BASE_MINT ∧ m.quoteMint = QUOTE_MINT) ∨
    (m.baseMint = QUOTE_MINT ∧ m.quoteMint = BASE_MINT))

/-- Result of the candidate scan loop: the first matching address, if any, plus the trace. -/
structure ScanResult where
  found : Option PublicKey
  ops : List LedgerOp
deriving DecidableEq

/-- Candidate scan loop (src/bot.js lines 71-100): decode each candidate in order;
a decode failure skips the candidate; the first decoded market matching the pair
is returned immediately. -/
def scanCandidates (decode : PublicKey → Option Market) : List Account → ScanResult
  | [] => ⟨none, []⟩
  | a :: rest =>
    match decode a.pubkey with
    | some m =>
      if matchesPair m then ⟨some a.pubkey, [.decodeLoad a.pubkey]⟩
      else ⟨(scanCandidates decode rest).found, .decodeLoad a.pubkey :: (scanCandidates decode rest).ops⟩
    | none => ⟨(scanCandidates decode rest).found, .decodeLoad a.pubkey :: (scanCandidates decode rest).ops⟩

/-- Result of findMarkets: resolved address or error, plus the trace. -/
structure FindResult where
  result : Except BotError PublicKey
  ops : List LedgerOp

/-- Scan phase of findMarkets over gathered candidates: probe at most the first 20,
return the first match, otherwise the not found error of src/bot.js line 102. -/
def scanOutcome (chain : Chain) (gOps : List LedgerOp) (cands : List Account) : FindResult :=
  match (scanCandidates chain.decodeMarket (cands.take 20)).found with
  | some pk => ⟨.ok pk, gOps ++ (scanCandidates chain.decodeMarket (cands.take 20)).ops⟩
  | none => ⟨.error .marketNotFound, gOps ++ (scanCandidates chain.decodeMarket (cands.take 20)).ops⟩

/-- Market resolver findMarkets (src/bot.js lines 39-107): gather candidates, scan
at most the first 20 of them, fail with a not found error when none matches. -/
def findMarkets (chain : Chain) : FindResult :=
  match (gatherCandidates chain).result with
  | .error e => ⟨.error e, (gatherCandidates chain).ops⟩
  | .ok cands => scanOutcome chain (gatherCandidates chain).ops cands

/-- Module level mutable state of the bot: the MARKET_ADDRESS cache slot
(src/bot.js line 33). -/
structure BotState where
  marketAddress : Option PublicKey
deriving DecidableEq

/-- State at process start: MARKET_ADDRESS is initialized as null (src/bot.js line 33). -/
def initialState : BotState := ⟨none⟩

/-- Result of loading a market at a known address, plus the trace. -/
structure LoadAtResult where
  result : Except BotError Market
  ops : List LedgerOp

/-- Loading at a resolved address (src/bot.js lines 118-130): existence check via
getAccountInfo, a vanished account is a fatal error, then a fresh decode. -/
def loadMarketAt (chain : Chain) (addr : PublicKey) : LoadAtResult :=
  match chain.accountInfo addr with
  | none => ⟨.error .marketAccountMissing, [.getAccount addr]⟩
  | some _ =>
    match chain.decodeMarket addr with
    | some m => ⟨.ok m, [.getAccount addr, .decodeLoad addr]⟩
    | none => ⟨.error .decodeFailed, [.getAccount addr, .decodeLoad addr]⟩

/-- Result of loadMarket: market or error, the updated cache state and the trace. -/
structure LoadResult where
  result : Except BotError Market
  state : BotState
  ops : List LedgerOp

/-- Market loader loadMarket (src/bot.js lines 110-135): resolve the address via
findMarkets when the cache slot is empty (populating the slot only on success),
then verify existence and decode fresh state. -/
def loadMarket (chain : Chain) (st : BotState) : LoadResult :=
  match st.marketAddress with
  | some addr => ⟨(loadMarketAt chain addr).result, st, (loadMarketAt chain addr).ops⟩
  | none =>
    match (findMarkets chain).result with
    | .error e => ⟨.error e, st, (findMarkets chain).ops⟩
    | .ok addr =>
      ⟨(loadMarketAt chain addr).result, ⟨some addr⟩,
        (findMarkets chain).ops ++ (loadMarketAt chain addr).ops⟩

/-- Deterministic associated token address of an (owner, mint) pair; the source
calls the spl-token derivation (src/bot.js line 139), modelled as an injective
tagging of the pair. -/
def getAssociatedTokenAddressSync (mint owner : PublicKey) : PublicKey :=
  ⟨"ata/" ++ mint.key ++ "/" ++ owner.key⟩

/-- Result of the provisioner: address or error, the updated chain and the trace. -/
structure ProvisionResult where
  result : Except BotError PublicKey
  chain : Chain
  ops : List LedgerOp

/-- Settlement account provisioner (src/bot.js lines 138-165): existence check
first; when present return immediately; when absent submit one single
instruction creation transaction and wait for its confirmation (the confirmed
account becomes visible to later reads) before returning the address. -/
def getOrCreateAssociatedTokenAccount (chain : Chain) (owner mint : PublicKey) : ProvisionResult :=
  match chain.accountInfo (getAssociatedTokenAddressSync mint owner) with
  | some _ =>
    ⟨.ok (getAssociatedTokenAddressSync mint owner), chain,
      [.getAccount (getAssociatedTokenAddressSync mint owner)]⟩
  | none =>
    if chain.txOk then
      ⟨.ok (getAssociatedTokenAddressSync mint owner),
        { chain with
          accountInfo := fun p =>
            if p = getAssociatedTokenAddressSync mint owner then some ⟨165⟩
            else chain.accountInfo p },
        [.getAccount (getAssociatedTokenAddressSync mint owner),
          .submitTx [.createAssociatedTokenAccount owner (getAssociatedTokenAddressSync mint owner)
            owner mint TOKEN_PROGRAM_ID]]⟩
    else
      ⟨.error .provisionFailed, chain,
        [.getAccount (getAssociatedTokenAddressSync mint owner),
          .submitTx [.createAssociatedTokenAccount owner (getAssociatedTokenAddressSync mint owner)
            owner mint TOKEN_PROGRAM_ID]]⟩

/-- First placeOrder event of a trace, if any. -/
def submittedOrder (ops : List LedgerOp) : Option OrderArgs :=
  ops.findSome? fun op =>
    match op with
    | .placeOrder args => some args
    | _ => none

/-- Order argument record built at submission time now (milliseconds): fixed limit
type, decrement and take self trade policy, expiry one minute past the submission
second, client order id minted from the current time (src/bot.js lines 178-188). -/
def orderArgsAt (payer : PublicKey) (side : Side) (price size : Rat) (now : Nat) : OrderArgs :=
  { owner := walletPublicKey
    payer := payer
    side := side
    price := price
    size := size
    orderType := "limit"
    clientOrderId := now
    selfTradeBehavior := "decrementTake"
    expiryTimestamp := now / 1000 + 60 }

/-- Funding account provisioning of placeLimitOrder (src/bot.js lines 170-173):
the quote mint funds a buy, the base mint funds a sell. -/
def payerProvision (chain : Chain) (side : Side) : ProvisionResult :=
  getOrCreateAssociatedTokenAccount chain walletPublicKey
    (if side = Side.buy then QUOTE_MINT else BASE_MINT)

/-- Result of placeLimitOrder: signature or error, the updated chain and the trace. -/
structure SubmitResult where
  result : Except BotError String
  chain : Chain
  ops : List LedgerOp

/-- Submission step of placeLimitOrder (src/bot.js line 178): the market.placeOrder
call itself, appended to the provisioning trace. -/
def placeOrderCall (chain2 : Chain) (provOps : List LedgerOp) (market : Market)
    (args : OrderArgs) : SubmitResult :=
  match chain2.placeOrderOutcome market args with
  | some sig => ⟨.ok sig, chain2, provOps ++ [.placeOrder args]⟩
  | none => ⟨.error .placeOrderFailed, chain2, provOps ++ [.placeOrder args]⟩

/-- Order submitter placeLimitOrder (src/bot.js lines 168-195): provision the side
appropriate payer account, then submit the order; the two Date.now() reads of the
source are modelled as the single instant now. -/
def placeLimitOrder (chain : Chain) (now : Nat) (market : Market) (side : Side)
    (price size : Rat) : SubmitResult :=
  match (payerProvision chain side).result with
  | .error e => ⟨.error e, (payerProvision chain side).chain, (payerProvision chain side).ops⟩
  | .ok payer =>
    placeOrderCall (payerProvision chain side).chain (payerProvision chain side).ops market
      (orderArgsAt payer side price size now)

/-- Result of one retry attempt: outcome, updated cache state, updated chain, trace. -/
structure AttemptResult where
  result : Except BotError String
  state : BotState
  chain : Chain
  ops : List LedgerOp

/-- One attempt of a phase (src/bot.js lines 202-203, 219-220): market load followed
by order placement; a load failure aborts the attempt. -/
def attemptOnce (chain : Chain) (now : Nat) (side : Side) (price size : Rat)
    (st : BotState) : AttemptResult :=
  match (loadMarket chain st).result with
  | .error e => ⟨.error e, (loadMarket chain st).state, chain, (loadMarket chain st).ops⟩
  | .ok market =>
    ⟨(placeLimitOrder chain now market side price size).result,
      (loadMarket chain st).state,
      (placeLimitOrder chain now market side price size).chain,
      (loadMarket chain st).ops ++ (placeLimitOrder chain now market side price size).ops⟩

/-- Outcome of a buy or sell phase: final state and chain, number of attempts
performed, and the signature of the successful attempt, if any. The phase never
throws: failure past the ceiling is reported, not escalated. -/
structure PhaseResult where
  state : BotState
  chain : Chain
  attempts : Nat
  txSig : Option String

/-- Bounded retry loop of a phase (src/bot.js lines 200-212, 217-229): attempt up
to remaining more times, done attempts already made; return immediately on the
first success, return normally after the ceiling. -/
def retryPhase (side : Side) (price size : Rat) (clock : Nat → Nat) :
    Nat → Nat → Chain → BotState → PhaseResult
  | 0, done, chain, st => ⟨st, chain, done, none⟩
  | remaining + 1, done, chain, st =>
    match (attemptOnce chain (clock done) side price size st).result with
    | .ok sig =>
      ⟨(attemptOnce chain (clock done) side price size st).state,
        (attemptOnce chain (clock done) side price size st).chain, done + 1, some sig⟩
    | .error _ =>
      retryPhase side price size clock remaining (done + 1)
        (attemptOnce chain (clock done) side price size st).chain
        (attemptOnce chain (clock done) side price size st).state

/-- Buy phase buySol (src/bot.js lines 198-213); the source defaults are
price 0.01, size 0.01, retries 3. -/
def buySol (chain : Chain) (clock : Nat → Nat) (price size : Rat) (retries : Nat)
    (st : BotState) : PhaseResult :=
  retryPhase Side.buy price size clock retries 0 chain st

/-- Sell phase sellSol (src/bot.js lines 215-230); the source defaults are
price 100, size 0.01, retries 3. -/
def sellSol (chain : Chain) (clock : Nat → Nat) (price size : Rat) (retries : Nat)
    (st : BotState) : PhaseResult :=
  retryPhase Side.sell price size clock retries 0 chain st

/-- Scan events of a trace. -/
def isScanOp : LedgerOp → Bool
  | .filteredScan _ => true
  | .unfilteredScan => true
  | _ => false

/-- Number of scan events of a trace. -/
def countScanOps (ops : List LedgerOp) : Nat := (ops.filter isScanOp).length

/-- Unfiltered scan events of a trace. -/
def isUnfilteredOp : LedgerOp → Bool
  | .unfilteredScan => true
  | _ => false

/-- Number of unfiltered scan events of a trace. -/
def countUnfilteredOps (ops : List LedgerOp) : Nat := (ops.filter isUnfilteredOp).length

/-- Decode events of a trace. -/
def isDecodeOp : LedgerOp → Bool
  | .decodeLoad _ => true
  | _ => false

/-- Number of decode events of a trace. -/
def countDecodeOps (ops : List LedgerOp) : Nat := (ops.filter isDecodeOp).length

/-- Transaction submission events of a trace. -/
def isSubmitOp : LedgerOp → Bool
  | .submitTx _ => true
  | _ => false

/-- Number of transaction submission events of a trace. -/
def countSubmitOps (ops : List LedgerOp) : Nat := (ops.filter isSubmitOp).length

/-- Fixture: address of a SOL/USDC market used by concrete witnesses. -/
def mAddr : PublicKey := ⟨"Market1111111111111111111111111111111111111"⟩

/-- Fixture: a decoded SOL/USDC market. -/
def solUsdcMarket : Market := ⟨BASE_MINT, QUOTE_MINT⟩

/-- Fixture: cache state holding the resolved market address. -/
def okState : BotState := ⟨some mAddr⟩

/-- Fixture: a collaborator stub on which every attempt fails: scans find nothing,
nothing decodes, no account exists, submissions fail. -/
def failChain : Chain :=
  { programAccountsBySize := fun _ => some []
    allProgramAccounts := some []
    decodeMarket := fun _ => none
    accountInfo := fun _ => none
    placeOrderOutcome := fun _ _ => none
    txOk := false }

/-- Fixture: a collaborator stub on which everything succeeds: each filtered scan
finds the market account, everything decodes to the SOL/USDC market, every
account exists, order submission returns a signature. -/
def okChain : Chain :=
  { programAccountsBySize := fun _ => some [⟨mAddr, 776⟩]
    allProgramAccounts := some []
    decodeMarket := fun _ => some solUsdcMarket
    accountInfo := fun _ => some ⟨776⟩
    placeOrderOutcome := fun _ _ => some "sig1"
    txOk := true }

/-- Fixture: a collaborator stub on which no account exists yet but the creation
transaction confirms. -/
def creationChain : Chain :=
  { programAccountsBySize := fun _ => some []
    allProgramAccounts := some []
    decodeMarket := fun _ => none
    accountInfo := fun _ => none
    placeOrderOutcome := fun _ _ => some "sig2"
    txOk := true }

/-- Fixture: candidate list gathered from okChain (one hit per probed size). -/
def okCands : List Account :=
  [⟨mAddr, 776⟩, ⟨mAddr, 776⟩, ⟨mAddr, 776⟩, ⟨mAddr, 776⟩, ⟨mAddr, 776⟩]

/-- Fixture: payer account of a buy order. -/
def buyPayer : PublicKey := getAssociatedTokenAddressSync QUOTE_MINT walletPublicKey

/-! Helper lemmas shared by the claim proofs. -/

theorem countScanOps_append (a b : List LedgerOp) :
    countScanOps (a ++ b) = countScanOps a + countScanOps b := by
  simp [countScanOps, List.filter_append]

theorem countUnfilteredOps_append (a b : List LedgerOp) :
    countUnfilteredOps (a ++ b) = countUnfilteredOps a + countUnfilteredOps b := by
  simp [countUnfilteredOps, List.filter_append]

theorem countDecodeOps_append (a b : List LedgerOp) :
    countDecodeOps (a ++ b) = countDecodeOps a + countDecodeOps b := by
  simp [countDecodeOps, List.filter_append]

theorem countSubmitOps_append (a b : List LedgerOp) :
    countSubmitOps (a ++ b) = countSubmitOps a + countSubmitOps b := by
  simp [countSubmitOps, List.filter_append]

theorem gatherCandidates_ops (chain : Chain) :
    (gatherCandidates chain).ops =
      possibleSizes.map LedgerOp.filteredScan ++ [LedgerOp.unfilteredScan] ∨
    (gatherCandidates chain).ops = possibleSizes.map LedgerOp.filteredScan := by
  unfold gatherCandidates
  by_cases h : sizeScans chain = []
  · rw [if_pos h]
    cases chain.allProgramAccounts with
    | none => exact Or.inl rfl
    | some l => exact Or.inl rfl
  · rw [if_neg h]
    exact Or.inr rfl

theorem gatherCandidates_ops_scan_pos (chain : Chain) :
    0 < countScanOps (gatherCandidates chain).ops := by
  rcases gatherCandidates_ops chain with h | h <;> rw [h] <;> decide

theorem gatherCandidates_ops_decode_free (chain : Chain) :
    countDecodeOps (gatherCandidates chain).ops = 0 := by
  rcases gatherCandidates_ops chain with h | h <;> rw [h] <;> decide

theorem scanCandidates_ops_shape (decode : PublicKey → Option Market) (l : List Account) :
    countUnfilteredOps (scanCandidates decode l).ops = 0 ∧
    countScanOps (scanCandidates decode l).ops = 0 ∧
    (scanCandidates decode l).ops.length ≤ l.length := by
  induction l with
  | nil => exact ⟨rfl, rfl, Nat.le_refl 0⟩
  | cons a rest ih =>
    unfold scanCandidates
    cases hd : decode a.pubkey with
    | none =>
      refine ⟨?_, ?_, ?_⟩
      · simpa [countUnfilteredOps, List.filter_cons, isUnfilteredOp] using ih.1
      · simpa [countScanOps, List.filter_cons, isScanOp] using ih.2.1
      · simpa using Nat.succ_le_succ ih.2.2
    | some m =>
      cases hm : matchesPair m with
      | true =>
        refine ⟨?_, ?_, ?_⟩
        · simp [hm, countUnfilteredOps, List.filter_cons, isUnfilteredOp]
        · simp [hm, countScanOps, List.filter_cons, isScanOp]
        · simp [hm]
      | false =>
        refine ⟨?_, ?_, ?_⟩
        · simpa [hm, countUnfilteredOps, List.filter_cons, isUnfilteredOp] using ih.1
        · simpa [hm, countScanOps, List.filter_cons, isScanOp] using ih.2.1
        · simpa [hm] using Nat.succ_le_succ ih.2.2

theorem scanOutcome_ops (chain : Chain) (gOps : List LedgerOp) (cands : List Account) :
    (scanOutcome chain gOps cands).ops =
      gOps ++ (scanCandidates chain.decodeMarket (cands.take 20)).ops := by
  unfold scanOutcome
  cases (scanCandidates chain.decodeMarket (cands.take 20)).found with
  | some pk => rfl
  | none => rfl

theorem findMarkets_error_eq (chain : Chain) (e : BotError)
    (hg : (gatherCandidates chain).result = .error e) :
    findMarkets chain = ⟨.error e, (gatherCandidates chain).ops⟩ := by
  unfold findMarkets
  rw [hg]

theorem findMarkets_ok_eq (chain : Chain) (cands : List Account)
    (hg : (gatherCandidates chain).result = .ok cands) :
    findMarkets chain = scanOutcome chain (gatherCandidates chain).ops cands := by
  unfold findMarkets
  rw [hg]

theorem findMarkets_ops_cases (chain : Chain) :
    (findMarkets chain).ops = (gatherCandidates chain).ops ∨
    ∃ cands : List Account, (findMarkets chain).ops =
      (gatherCandidates chain).ops ++ (scanCandidates chain.decodeMarket (cands.take 20)).ops := by
  cases hg : (gatherCandidates chain).result with
  | error e =>
    rw [findMarkets_error_eq chain e hg]
    exact Or.inl rfl
  | ok cands =>
    rw [findMarkets_ok_eq chain cands hg]
    exact Or.inr ⟨cands, scanOutcome_ops chain (gatherCandidates chain).ops cands⟩

theorem findMarkets_ops_scan_pos (chain : Chain) :
    0 < countScanOps (findMarkets chain).ops := by
  rcases findMarkets_ops_cases chain with h | ⟨c, h⟩ <;> rw [h]
  · exact gatherCandidates_ops_scan_pos chain
  · rw [countScanOps_append]
    have := gatherCandidates_ops_scan_pos chain
    omega

theorem loadMarket_none_eq (chain : Chain) :
    loadMarket chain ⟨none⟩ =
      (match (findMarkets chain).result with
       | .error e => ⟨.error e, ⟨none⟩, (findMarkets chain).ops⟩
       | .ok addr =>
         ⟨(loadMarketAt chain addr).result, ⟨some addr⟩,
           (findMarkets chain).ops ++ (loadMarketAt chain addr).ops⟩) := rfl

theorem loadMarket_some_eq (chain : Chain) (addr : PublicKey) :
    loadMarket chain ⟨some addr⟩ =
      ⟨(loadMarketAt chain addr).result, ⟨some addr⟩, (loadMarketAt chain addr).ops⟩ := rfl

theorem loadMarket_none_ops_cases (chain : Chain) (st : BotState)
    (h : st.marketAddress = none) :
    (loadMarket chain st).ops = (findMarkets chain).ops ∨
    ∃ addr : PublicKey, (loadMarket chain st).ops =
      (findMarkets chain).ops ++ (loadMarketAt chain addr).ops := by
  obtain ⟨ma⟩ := st
  replace h : ma = none := h
  subst h
  rw [loadMarket_none_eq]
  split
  · exact Or.inl rfl
  · rename_i addr heq
    exact Or.inr ⟨addr, rfl⟩

theorem loadMarket_none_scan_pos (chain : Chain) (st : BotState)
    (h : st.marketAddress = none) : 0 < countScanOps (loadMarket chain st).ops := by
  rcases loadMarket_none_ops_cases chain st h with h2 | ⟨addr, h2⟩ <;> rw [h2]
  · exact findMarkets_ops_scan_pos chain
  · rw [countScanOps_append]
    have := findMarkets_ops_scan_pos chain
    omega

theorem loadMarketAt_ops_scan_free (chain : Chain) (addr : PublicKey) :
    countScanOps (loadMarketAt chain addr).ops = 0 := by
  unfold loadMarketAt
  cases chain.accountInfo addr with
  | none => rfl
  | some d =>
    cases chain.decodeMarket addr with
    | none => rfl
    | some m => rfl

theorem getOrCreate_ops_shape (chain : Chain) (owner mint : PublicKey) :
    (getOrCreateAssociatedTokenAccount chain owner mint).ops =
      [.getAccount (getAssociatedTokenAddressSync mint owner)] ∨
    (getOrCreateAssociatedTokenAccount chain owner mint).ops =
      [.getAccount (getAssociatedTokenAddressSync mint owner),
        .submitTx [.createAssociatedTokenAccount owner (getAssociatedTokenAddressSync mint owner)
          owner mint TOKEN_PROGRAM_ID]] := by
  unfold getOrCreateAssociatedTokenAccount
  cases chain.accountInfo (getAssociatedTokenAddressSync mint owner) with
  | some d => exact Or.inl rfl
  | none =>
    by_cases h : chain.txOk
    · rw [if_pos h]
      exact Or.inr rfl
    · rw [if_neg h]
      exact Or.inr rfl

theorem getOrCreate_ok_addr (chain : Chain) (owner mint a : PublicKey)
    (h : (getOrCreateAssociatedTokenAccount chain owner mint).result = .ok a) :
    a = getAssociatedTokenAddressSync mint owner := by
  unfold getOrCreateAssociatedTokenAccount at h
  cases hacc : chain.accountInfo (getAssociatedTokenAddressSync mint owner) with
  | some d =>
    rw [hacc] at h
    cases h
    rfl
  | none =>
    rw [hacc] at h
    by_cases htx : chain.txOk
    · rw [if_pos htx] at h
      cases h
      rfl
    · rw [if_neg htx] at h
      cases h

theorem submittedOrder_prov_append (chain : Chain) (owner mint : PublicKey) (args : OrderArgs) :
    submittedOrder ((getOrCreateAssociatedTokenAccount chain owner mint).ops ++
      [.placeOrder args]) = some args := by
  rcases getOrCreate_ops_shape chain owner mint with h | h <;> rw [h] <;> rfl

theorem submittedOrder_prov_none (chain : Chain) (owner mint : PublicKey) :
    submittedOrder (getOrCreateAssociatedTokenAccount chain owner mint).ops = none := by
  rcases getOrCreate_ops_shape chain owner mint with h | h <;> rw [h] <;> rfl

theorem submittedOrder_payerProv_none (chain : Chain) (side : Side) :
    submittedOrder (payerProvision chain side).ops = none :=
  submittedOrder_prov_none chain walletPublicKey _

theorem submittedOrder_payerProv_append (chain : Chain) (side : Side) (args : OrderArgs) :
    submittedOrder ((payerProvision chain side).ops ++ [.placeOrder args]) = some args :=
  submittedOrder_prov_append chain walletPublicKey _ args

theorem placeOrderCall_ops (chain2 : Chain) (provOps : List LedgerOp) (market : Market)
    (args : OrderArgs) :
    (placeOrderCall chain2 provOps market args).ops = provOps ++ [.placeOrder args] := by
  unfold placeOrderCall
  cases chain2.placeOrderOutcome market args with
  | some sig => rfl
  | none => rfl

theorem placeLimitOrder_ops_ok (chain : Chain) (now : Nat) (market : Market) (side : Side)
    (price size : Rat) (payer : PublicKey)
    (hp : (payerProvision chain side).result = .ok payer) :
    (placeLimitOrder chain now market side price size).ops =
      (payerProvision chain side).ops ++ [.placeOrder (orderArgsAt payer side price size now)] := by
  unfold placeLimitOrder
  rw [hp]
  exact placeOrderCall_ops (payerProvision chain side).chain (payerProvision chain side).ops
    market (orderArgsAt payer side price size now)

theorem placeLimitOrder_ops_error (chain : Chain) (now : Nat) (market : Market) (side : Side)
    (price size : Rat) (e : BotError)
    (hp : (payerProvision chain side).result = .error e) :
    (placeLimitOrder chain now market side price size).ops = (payerProvision chain side).ops := by
  unfold placeLimitOrder
  rw [hp]

theorem placeLimitOrder_submitted (chain : Chain) (now : Nat) (market : Market) (side : Side)
    (price size : Rat) (h : isErr (payerProvision chain side).result = false) :
    submittedOrder (placeLimitOrder chain now market side price size).ops =
      some (orderArgsAt
        (getAssociatedTokenAddressSync (if side = Side.buy then QUOTE_MINT else BASE_MINT)
          walletPublicKey)
        side price size now) := by
  cases hp : (payerProvision chain side).result with
  | error e => rw [hp] at h; simp [isErr] at h
  | ok payer =>
    have hpayer : payer = getAssociatedTokenAddressSync
        (if side = Side.buy then QUOTE_MINT else BASE_MINT) walletPublicKey :=
      getOrCreate_ok_addr chain walletPublicKey _ payer hp
    subst hpayer
    rw [placeLimitOrder_ops_ok chain now market side price size _ hp]
    exact submittedOrder_payerProv_append chain side _

theorem placeLimitOrder_submitted_clientOrderId (chain : Chain) (now : Nat) (market : Market)
    (side : Side) (price size : Rat) (a : OrderArgs)
    (h : submittedOrder (placeLimitOrder chain now market side price size).ops = some a) :
    a.clientOrderId = now := by
  cases hp : (payerProvision chain side).result with
  | error e =>
    rw [placeLimitOrder_ops_error chain now market side price size e hp] at h
    rw [submittedOrder_payerProv_none chain side] at h
    cases h
  | ok payer =>
    rw [placeLimitOrder_ops_ok chain now market side price size payer hp] at h
    rw [submittedOrder_payerProv_append chain side _] at h
    cases h
    rfl

theorem retryPhase_succ_ok (side : Side) (price size : Rat) (clock : Nat → Nat)
    (m k : Nat) (ch : Chain) (st : BotState) (sig : String)
    (h : (attemptOnce ch (clock k) side price size st).result = .ok sig) :
    retryPhase side price size clock (m + 1) k ch st =
      ⟨(attemptOnce ch (clock k) side price size st).state,
        (attemptOnce ch (clock k) side price size st).chain, k + 1, some sig⟩ := by
  unfold retryPhase
  rw [h]

theorem retryPhase_succ_error (side : Side) (price size : Rat) (clock : Nat → Nat)
    (m k : Nat) (ch : Chain) (st : BotState) (e : BotError)
    (h : (attemptOnce ch (clock k) side price size st).result = .error e) :
    retryPhase side price size clock (m + 1) k ch st =
      retryPhase side price size clock m (k + 1)
        (attemptOnce ch (clock k) side price size st).chain
        (attemptOnce ch (clock k) side price size st).state := by
  conv_lhs => unfold retryPhase
  rw [h]

theorem retryPhase_all_fail (side : Side) (price size : Rat) (clock : Nat → Nat)
    (P : Chain → Prop)
    (H : ∀ ch st2 t, P ch → isErr (attemptOnce ch t side price size st2).result = true ∧
      P (attemptOnce ch t side price size st2).chain) :
    ∀ n k : Nat, ∀ ch : Chain, ∀ st : BotState, P ch →
      (retryPhase side price size clock n k ch st).attempts = k + n ∧
      (retryPhase side price size clock n k ch st).txSig = none := by
  intro n
  induction n with
  | zero =>
    intro k ch st hP
    refine ⟨?_, rfl⟩
    show k = k + 0
    omega
  | succ m ih =>
    intro k ch st hP
    obtain ⟨hf, hPnext⟩ := H ch st (clock k) hP
    cases hres : (attemptOnce ch (clock k) side price size st).result with
    | ok sig =>
      rw [hres] at hf
      simp [isErr] at hf
    | error e =>
      rw [retryPhase_succ_error side price size clock m k ch st e hres]
      have h2 := ih (k + 1) (attemptOnce ch (clock k) side price size st).chain
        (attemptOnce ch (clock k) side price size st).state hPnext
      refine ⟨?_, h2.2⟩
      rw [h2.1]
      omega

theorem attemptOnce_failChain (side : Side) (price size : Rat) (st : BotState) (t : Nat) :
    isErr (attemptOnce failChain t side price size st).result = true ∧
    (attemptOnce failChain t side price size st).chain = failChain := by
  obtain ⟨ma⟩ := st
  cases ma with
  | none => exact ⟨rfl, rfl⟩
  | some addr => exact ⟨rfl, rfl⟩

theorem getOrCreate_exists_eq (chain : Chain) (owner mint : PublicKey) (d : AccountData)
    (h : chain.accountInfo (getAssociatedTokenAddressSync mint owner) = some d) :
    getOrCreateAssociatedTokenAccount chain owner mint =
      ⟨.ok (getAssociatedTokenAddressSync mint owner), chain,
        [.getAccount (getAssociatedTokenAddressSync mint owner)]⟩ := by
  unfold getOrCreateAssociatedTokenAccount
  rw [h]

theorem getOrCreate_absent_eq (chain : Chain) (owner mint : PublicKey)
    (h : chain.accountInfo (getAssociatedTokenAddressSync mint owner) = none)
    (htx : chain.txOk = true) :
    getOrCreateAssociatedTokenAccount chain owner mint =
      ⟨.ok (getAssociatedTokenAddressSync mint owner),
        { chain with
          accountInfo := fun p =>
            if p = getAssociatedTokenAddressSync mint owner then some ⟨165⟩
            else chain.accountInfo p },
        [.getAccount (getAssociatedTokenAddressSync mint owner),
          .submitTx [.createAssociatedTokenAccount owner (getAssociatedTokenAddressSync mint owner)
            owner mint TOKEN_PROGRAM_ID]]⟩ := by
  unfold getOrCreateAssociatedTokenAccount
  rw [h, if_pos htx]

theorem scanCandidates_found_eq_find (decode : PublicKey → Option Market) (l : List Account) :
    (scanCandidates decode l).found =
      (l.find? fun a =>
        match decode a.pubkey with
        | some m => matchesPair m
        | none => false).map (fun a => a.pubkey) := by
  induction l with
  | nil => rfl
  | cons a rest ih =>
    unfold scanCandidates
    cases hd : decode a.pubkey with
    | none =>
      rw [List.find?_cons_of_neg]
      · exact ih
      · simp [hd]
    | some m =>
      cases hm : matchesPair m with
      | true =>
        rw [List.find?_cons_of_pos]
        · simp [hm]
        · simp [hd, hm]
      | false =>
        rw [List.find?_cons_of_neg]
        · simp only [hm, if_false]
          exact ih
        · simp [hd, hm]

/-! Claim theorems and their witnesses. -/

/-- C1: for every buy or sell phase, if every attempt (market load followed by order
placement) fails, the phase performs exactly 3 attempts (the configured retry
ceiling) and returns normally without propagating any error to the scheduler loop
(the phase result type carries no error at all); on a successful first attempt it
returns immediately after exactly one attempt. The always failing collaborator is
expressed as an invariant P preserved by failing attempts. -/
theorem scheduler_retry_ceiling_and_short_circuit
    (chain : Chain) (clock : Nat → Nat) (price size : Rat) (st : BotState) :
    (∀ P : Chain → Prop, P chain →
      (∀ ch : Chain, ∀ st2 : BotState, ∀ t : Nat, ∀ s : Side, P ch →
        isErr (attemptOnce ch t s price size st2).result = true ∧
        P (attemptOnce ch t s price size st2).chain) →
      (buySol chain clock price size 3 st).attempts = 3 ∧
      (buySol chain clock price size 3 st).txSig = none ∧
      (sellSol chain clock price size 3 st).attempts = 3 ∧
      (sellSol chain clock price size 3 st).txSig = none) ∧
    (∀ retries : Nat, ∀ sig : String, 0 < retries →
      (attemptOnce chain (clock 0) Side.buy price size st).result = Except.ok sig →
      (buySol chain clock price size retries st).attempts = 1 ∧
      (buySol chain clock price size retries st).txSig = some sig) ∧
    (∀ retries : Nat, ∀ sig : String, 0 < retries →
      (attemptOnce chain (clock 0) Side.sell price size st).result = Except.ok sig →
      (sellSol chain clock price size retries st).attempts = 1 ∧
      (sellSol chain clock price size retries st).txSig = some sig) := by
  refine ⟨?_, ?_, ?_⟩
  · intro P hP H
    have hb := retryPhase_all_fail Side.buy price size clock P
      (fun ch st2 t hc => H ch st2 t Side.buy hc) 3 0 chain st hP
    have hs := retryPhase_all_fail Side.sell price size clock P
      (fun ch st2 t hc => H ch st2 t Side.sell hc) 3 0 chain st hP
    exact ⟨hb.1, hb.2, hs.1, hs.2⟩
  · intro retries sig hpos hok
    cases retries with
    | zero => omega
    | succ m =>
      unfold buySol
      rw [retryPhase_succ_ok Side.buy price size clock m 0 chain st sig hok]
      exact ⟨rfl, rfl⟩
  · intro retries sig hpos hok
    cases retries with
    | zero => omega
    | succ m =>
      unfold sellSol
      rw [retryPhase_succ_ok Side.sell price size clock m 0 chain st sig hok]
      exact ⟨rfl, rfl⟩

/-- C1 witness: on the always failing stub both phases make exactly 3 attempts and
return no signature; on the succeeding stub both phases stop after one attempt. -/
theorem scheduler_retry_ceiling_and_short_circuit_witness :
    ((buySol failChain (fun i => i) 1 1 3 initialState).attempts = 3 ∧
      (buySol failChain (fun i => i) 1 1 3 initialState).txSig = none ∧
      (sellSol failChain (fun i => i) 1 1 3 initialState).attempts = 3 ∧
      (sellSol failChain (fun i => i) 1 1 3 initialState).txSig = none) ∧
    ((buySol okChain (fun i => i) 1 1 3 okState).attempts = 1 ∧
      (buySol okChain (fun i => i) 1 1 3 okState).txSig = some "sig1") ∧
    ((sellSol okChain (fun i => i) 1 1 3 okState).attempts = 1 ∧
      (sellSol okChain (fun i => i) 1 1 3 okState).txSig = some "sig1") := by
  refine ⟨?_, ?_, ?_⟩
  · exact (scheduler_retry_ceiling_and_short_circuit failChain (fun i => i) 1 1 initialState).1
      (fun c => c = failChain) rfl
      (fun ch st2 t s hc => by rw [hc]; exact attemptOnce_failChain s 1 1 st2 t)
  · exact (scheduler_retry_ceiling_and_short_circuit okChain (fun i => i) 1 1 okState).2.1
      3 "sig1" (by decide) rfl
  · exact (scheduler_retry_ceiling_and_short_circuit okChain (fun i => i) 1 1 okState).2.2
      3 "sig1" (by decide) rfl

/-- C4: the market address cache is empty at process start; a call with the cache
set leaves it unchanged and performs no scan; a call with the cache empty whose
resolution succeeds writes the resolved address into the cache. -/
theorem market_cache_write_once :
    initialState.marketAddress = none ∧
    (∀ chain : Chain, ∀ st : BotState, ∀ addr : PublicKey, st.marketAddress = some addr →
      (loadMarket chain st).state = st ∧ countScanOps (loadMarket chain st).ops = 0) ∧
    (∀ chain : Chain, ∀ st : BotState, ∀ addr : PublicKey, st.marketAddress = none →
      (findMarkets chain).result = .ok addr →
      (loadMarket chain st).state = ⟨some addr⟩) := by
  refine ⟨rfl, ?_, ?_⟩
  · intro chain st addr h
    obtain ⟨ma⟩ := st
    replace h : ma = some addr := h
    subst h
    rw [loadMarket_some_eq]
    exact ⟨rfl, loadMarketAt_ops_scan_free chain addr⟩
  · intro chain st addr h hf
    obtain ⟨ma⟩ := st
    replace h : ma = none := h
    subst h
    rw [loadMarket_none_eq, hf]

/-- C4 witness: the initial cache is empty; a loader call with the cache set keeps
the state and performs no scan; a loader call from the empty cache on the
succeeding stub stores the resolved market address. -/
theorem market_cache_write_once_witness :
    initialState.marketAddress = none ∧
    ((loadMarket okChain okState).state = okState ∧
      countScanOps (loadMarket okChain okState).ops = 0) ∧
    (loadMarket okChain initialState).state = ⟨some mAddr⟩ := by
  refine ⟨market_cache_write_once.1, ?_, ?_⟩
  · exact market_cache_write_once.2.1 okChain okState mAddr rfl
  · exact market_cache_write_once.2.2 okChain initialState mAddr rfl rfl

/-- C10: when resolution fails, the loader propagates the error, the cache slot
stays empty, and the next loader call performs a fresh scan. -/
theorem cache_untouched_on_failed_resolution :
    ∀ chain : Chain, ∀ st : BotState, ∀ e : BotError, st.marketAddress = none →
      (findMarkets chain).result = .error e →
      (loadMarket chain st).result = .error e ∧
      (loadMarket chain st).state.marketAddress = none ∧
      0 < countScanOps (loadMarket chain ((loadMarket chain st).state)).ops := by
  intro chain st e h hf
  obtain ⟨ma⟩ := st
  replace h : ma = none := h
  subst h
  rw [loadMarket_none_eq, hf]
  exact ⟨rfl, rfl, loadMarket_none_scan_pos chain ⟨none⟩ rfl⟩

/-- C10 witness: on the failing stub the loader propagates the not found error,
the cache stays empty and the follow up call scans again. -/
theorem cache_untouched_on_failed_resolution_witness :
    (loadMarket failChain initialState).result = .error .marketNotFound ∧
    (loadMarket failChain initialState).state.marketAddress = none ∧
    0 < countScanOps (loadMarket failChain ((loadMarket failChain initialState).state)).ops :=
  cache_untouched_on_failed_resolution failChain initialState .marketNotFound rfl rfl

/-- C9: the loader checks that the market address still corresponds to an existing
ledger account, failing fatally when it does not; when the account exists it
re-fetches and re-decodes the market state on every call, both on the cached
path and after a fresh resolution. -/
theorem loader_existence_check_and_refetch :
    ∀ chain : Chain, ∀ addr : PublicKey,
      (chain.accountInfo addr = none →
        (loadMarketAt chain addr).result = .error .marketAccountMissing ∧
        (loadMarketAt chain addr).ops = [.getAccount addr]) ∧
      (∀ d : AccountData, chain.accountInfo addr = some d →
        (loadMarketAt chain addr).ops = [.getAccount addr, .decodeLoad addr] ∧
        (loadMarketAt chain addr).result =
          (match chain.decodeMarket addr with
           | some m => Except.ok m
           | none => Except.error BotError.decodeFailed)) ∧
      (∀ st : BotState, st.marketAddress = some addr →
        loadMarket chain st =
          ⟨(loadMarketAt chain addr).result, st, (loadMarketAt chain addr).ops⟩) ∧
      (∀ st : BotState, st.marketAddress = none →
        (findMarkets chain).result = .ok addr →
        (loadMarket chain st).result = (loadMarketAt chain addr).result ∧
        (loadMarket chain st).ops = (findMarkets chain).ops ++ (loadMarketAt chain addr).ops) := by
  intro chain addr
  refine ⟨?_, ?_, ?_, ?_⟩
  · intro h
    unfold loadMarketAt
    rw [h]
    exact ⟨rfl, rfl⟩
  · intro d h
    unfold loadMarketAt
    rw [h]
    cases chain.decodeMarket addr with
    | some m => exact ⟨rfl, rfl⟩
    | none => exact ⟨rfl, rfl⟩
  · intro st h
    obtain ⟨ma⟩ := st
    replace h : ma = some addr := h
    subst h
    exact loadMarket_some_eq chain addr
  · intro st h hf
    obtain ⟨ma⟩ := st
    replace h : ma = none := h
    subst h
    rw [loadMarket_none_eq, hf]
    exact ⟨rfl, rfl⟩

/-- C9 witness: a vanished account is a fatal load error; an existing account is
re-fetched and re-decoded, both on the cached path and after resolution. -/
theorem loader_existence_check_and_refetch_witness :
    ((loadMarketAt failChain mAddr).result = .error .marketAccountMissing ∧
      (loadMarketAt failChain mAddr).ops = [.getAccount mAddr]) ∧
    ((loadMarketAt okChain mAddr).ops = [.getAccount mAddr, .decodeLoad mAddr] ∧
      (loadMarketAt okChain mAddr).result =
        (match okChain.decodeMarket mAddr with
         | some m => Except.ok m
         | none => Except.error BotError.decodeFailed)) ∧
    (loadMarket okChain okState =
      ⟨(loadMarketAt okChain mAddr).result, okState, (loadMarketAt okChain mAddr).ops⟩) ∧
    ((loadMarket okChain initialState).result = (loadMarketAt okChain mAddr).result ∧
      (loadMarket okChain initialState).ops =
        (findMarkets okChain).ops ++ (loadMarketAt okChain mAddr).ops) := by
  refine ⟨?_, ?_, ?_, ?_⟩
  · exact (loader_existence_check_and_refetch failChain mAddr).1 rfl
  · exact (loader_existence_check_and_refetch okChain mAddr).2.1 ⟨776⟩ rfl
  · exact (loader_existence_check_and_refetch okChain mAddr).2.2.1 okState rfl
  · exact (loader_existence_check_and_refetch okChain mAddr).2.2.2 initialState rfl rfl

/-- C2: the candidate scan loop returns the address of the first candidate, in
enumeration order, that decodes to a market matching the target pair in either
orientation, skipping candidates that fail to decode; and findMarkets resolves
to exactly that scan outcome over the first 20 gathered candidates. -/
theorem resolver_first_match_wins :
    (∀ decode : PublicKey → Option Market, ∀ l : List Account,
      (scanCandidates decode l).found =
        (l.find? fun a =>
          match decode a.pubkey with
          | some m => matchesPair m
          | none => false).map (fun a => a.pubkey)) ∧
    (∀ m : Market, matchesPair m = true ↔
      ((m.baseMint = BASE_MINT ∧ m.quoteMint = QUOTE_MINT) ∨
        (m.baseMint = QUOTE_MINT ∧ m.quoteMint = BASE_MINT))) ∧
    (∀ chain : Chain, ∀ cands : List Account,
      (gatherCandidates chain).result = .ok cands →
      (findMarkets chain).result =
        (match (scanCandidates chain.decodeMarket (cands.take 20)).found with
         | some pk => Except.ok pk
         | none => Except.error BotError.marketNotFound)) := by
  refine ⟨scanCandidates_found_eq_find, ?_, ?_⟩
  · intro m
    simp [matchesPair]
  · intro chain cands hg
    rw [findMarkets_ok_eq chain cands hg]
    unfold scanOutcome
    cases (scanCandidates chain.decodeMarket (cands.take 20)).found with
    | some pk => rfl
    | none => rfl

/-- C2 witness: the scan loop agrees with the first match characterization on the
concrete candidate list, the mirrored pair matches, and findMarkets returns the
scan outcome on the succeeding stub. -/
theorem resolver_first_match_wins_witness :
    (scanCandidates okChain.decodeMarket okCands).found =
      (okCands.find? fun a =>
        match okChain.decodeMarket a.pubkey with
        | some m => matchesPair m
        | none => false).map (fun a => a.pubkey) ∧
    (matchesPair solUsdcMarket = true ↔
      ((solUsdcMarket.baseMint = BASE_MINT ∧ solUsdcMarket.quoteMint = QUOTE_MINT) ∨
        (solUsdcMarket.baseMint = QUOTE_MINT ∧ solUsdcMarket.quoteMint = BASE_MINT))) ∧
    (findMarkets okChain).result =
      (match (scanCandidates okChain.decodeMarket (okCands.take 20)).found with
       | some pk => Except.ok pk
       | none => Except.error BotError.marketNotFound) := by
  refine ⟨resolver_first_match_wins.1 okChain.decodeMarket okCands,
    resolver_first_match_wins.2.1 solUsdcMarket, ?_⟩
  exact resolver_first_match_wins.2.2 okChain okCands rfl

/-- C3: findMarkets never decodes more than 20 candidates, and when the scan over
the first 20 gathered candidates finds no match it fails with the not found
error instead of probing further. -/
theorem resolver_probe_cap :
    ∀ chain : Chain,
      countDecodeOps (findMarkets chain).ops ≤ 20 ∧
      (∀ cands : List Account, (gatherCandidates chain).result = .ok cands →
        (scanCandidates chain.decodeMarket (cands.take 20)).found = none →
        (findMarkets chain).result = .error .marketNotFound) := by
  intro chain
  constructor
  · rcases findMarkets_ops_cases chain with h | ⟨c, h⟩ <;> rw [h]
    · rw [gatherCandidates_ops_decode_free]
      exact Nat.zero_le 20
    · rw [countDecodeOps_append, gatherCandidates_ops_decode_free]
      have h1 := (scanCandidates_ops_shape chain.decodeMarket (c.take 20)).2.2
      have h2 : countDecodeOps (scanCandidates chain.decodeMarket (c.take 20)).ops ≤
          (scanCandidates chain.decodeMarket (c.take 20)).ops.length :=
        List.length_filter_le _ _
      have h3 : (c.take 20).length ≤ 20 := by
        rw [List.length_take]
        omega
      omega
  · intro cands hg hs
    rw [findMarkets_ok_eq chain cands hg]
    unfold scanOutcome
    rw [hs]

/-- C3 witness: on the failing stub the gathered candidate list is empty, the scan
finds nothing, at most 20 decodes happen and the resolver reports not found. -/
theorem resolver_probe_cap_witness :
    countDecodeOps (findMarkets failChain).ops ≤ 20 ∧
    (gatherCandidates failChain).result = .ok [] ∧
    (scanCandidates failChain.decodeMarket (List.take 20 [])).found = none ∧
    (findMarkets failChain).result = .error .marketNotFound := by
  refine ⟨(resolver_probe_cap failChain).1, rfl, rfl, ?_⟩
  exact (resolver_probe_cap failChain).2 [] rfl rfl

/-- C8: the probe list is exactly [760, 776, 808, 824, 856]; when the size filtered
scans together yield zero candidates findMarkets performs exactly one unfiltered
scan, and when they yield any candidate it performs none. -/
theorem resolver_unfiltered_fallback :
    possibleSizes = [760, 776, 808, 824, 856] ∧
    ∀ chain : Chain,
      (sizeScans chain = [] → countUnfilteredOps (findMarkets chain).ops = 1) ∧
      (sizeScans chain ≠ [] → countUnfilteredOps (findMarkets chain).ops = 0) := by
  refine ⟨rfl, ?_⟩
  intro chain
  constructor
  · intro h
    have hops : (gatherCandidates chain).ops =
        possibleSizes.map LedgerOp.filteredScan ++ [LedgerOp.unfilteredScan] := by
      unfold gatherCandidates
      rw [if_pos h]
      cases chain.allProgramAccounts with
      | some l => rfl
      | none => rfl
    rcases findMarkets_ops_cases chain with h2 | ⟨c, h2⟩
    · rw [h2, hops]
      decide
    · rw [h2, countUnfilteredOps_append, hops,
        (scanCandidates_ops_shape chain.decodeMarket (c.take 20)).1]
      decide
  · intro h
    have hops : (gatherCandidates chain).ops = possibleSizes.map LedgerOp.filteredScan := by
      unfold gatherCandidates
      rw [if_neg h]
    rcases findMarkets_ops_cases chain with h2 | ⟨c, h2⟩
    · rw [h2, hops]
      decide
    · rw [h2, countUnfilteredOps_append, hops,
        (scanCandidates_ops_shape chain.decodeMarket (c.take 20)).1]
      decide

/-- C8 witness: the failing stub gathers nothing through the filtered scans and
performs one unfiltered scan; the succeeding stub gathers candidates and performs
none. -/
theorem resolver_unfiltered_fallback_witness :
    possibleSizes = [760, 776, 808, 824, 856] ∧
    countUnfilteredOps (findMarkets failChain).ops = 1 ∧
    countUnfilteredOps (findMarkets okChain).ops = 0 := by
  refine ⟨resolver_unfiltered_fallback.1, ?_, ?_⟩
  · exact (resolver_unfiltered_fallback.2 failChain).1 rfl
  · exact (resolver_unfiltered_fallback.2 okChain).2 (by decide)

/-- C5: the provisioner first checks existence of the deterministic address; when
the account exists it returns that address with no transaction and no chain
change; when absent it submits exactly one single instruction creation
transaction whose confirmation makes the account visible before the address is
returned; calling it twice issues at most one creation transaction, the second
call observing existence and writing nothing. -/
theorem provisioner_idempotent :
    (∀ chain : Chain, ∀ owner mint : PublicKey, ∀ d : AccountData,
      chain.accountInfo (getAssociatedTokenAddressSync mint owner) = some d →
      getOrCreateAssociatedTokenAccount chain owner mint =
        ⟨.ok (getAssociatedTokenAddressSync mint owner), chain,
          [.getAccount (getAssociatedTokenAddressSync mint owner)]⟩) ∧
    (∀ chain : Chain, ∀ owner mint : PublicKey,
      chain.accountInfo (getAssociatedTokenAddressSync mint owner) = none →
      chain.txOk = true →
      (getOrCreateAssociatedTokenAccount chain owner mint).result =
        .ok (getAssociatedTokenAddressSync mint owner) ∧
      (getOrCreateAssociatedTokenAccount chain owner mint).ops =
        [.getAccount (getAssociatedTokenAddressSync mint owner),
          .submitTx [.createAssociatedTokenAccount owner (getAssociatedTokenAddressSync mint owner)
            owner mint TOKEN_PROGRAM_ID]] ∧
      (getOrCreateAssociatedTokenAccount chain owner mint).chain.accountInfo
        (getAssociatedTokenAddressSync mint owner) = some ⟨165⟩) ∧
    (∀ chain : Chain, ∀ owner mint : PublicKey,
      chain.accountInfo (getAssociatedTokenAddressSync mint owner) = none →
      chain.txOk = true →
      countSubmitOps ((getOrCreateAssociatedTokenAccount chain owner mint).ops ++
        (getOrCreateAssociatedTokenAccount
          (getOrCreateAssociatedTokenAccount chain owner mint).chain owner mint).ops) = 1 ∧
      (getOrCreateAssociatedTokenAccount
        (getOrCreateAssociatedTokenAccount chain owner mint).chain owner mint).chain =
        (getOrCreateAssociatedTokenAccount chain owner mint).chain ∧
      (getOrCreateAssociatedTokenAccount
        (getOrCreateAssociatedTokenAccount chain owner mint).chain owner mint).result =
        .ok (getAssociatedTokenAddressSync mint owner)) := by
  refine ⟨?_, ?_, ?_⟩
  · intro chain owner mint d h
    exact getOrCreate_exists_eq chain owner mint d h
  · intro chain owner mint h htx
    rw [getOrCreate_absent_eq chain owner mint h htx]
    refine ⟨rfl, rfl, ?_⟩
    simp
  · intro chain owner mint h htx
    have h1 := getOrCreate_absent_eq chain owner mint h htx
    have hacc : (getOrCreateAssociatedTokenAccount chain owner mint).chain.accountInfo
        (getAssociatedTokenAddressSync mint owner) = some ⟨165⟩ := by
      rw [h1]
      simp
    have h2 := getOrCreate_exists_eq (getOrCreateAssociatedTokenAccount chain owner mint).chain
      owner mint ⟨165⟩ hacc
    refine ⟨?_, ?_, ?_⟩
    · rw [h2, h1]
      simp [countSubmitOps, List.filter_append, List.filter_cons, isSubmitOp]
    · rw [h2]
    · rw [h2]

/-- C5 witness: an existing account is returned untouched; an absent account
triggers exactly one single instruction creation; a second call after the
creation observes existence and performs no ledger write. -/
theorem provisioner_idempotent_witness :
    (getOrCreateAssociatedTokenAccount okChain walletPublicKey QUOTE_MINT =
      ⟨.ok buyPayer, okChain, [.getAccount buyPayer]⟩) ∧
    ((getOrCreateAssociatedTokenAccount creationChain walletPublicKey QUOTE_MINT).result =
        .ok buyPayer ∧
      (getOrCreateAssociatedTokenAccount creationChain walletPublicKey QUOTE_MINT).ops =
        [.getAccount buyPayer,
          .submitTx [.createAssociatedTokenAccount walletPublicKey buyPayer walletPublicKey
            QUOTE_MINT TOKEN_PROGRAM_ID]] ∧
      (getOrCreateAssociatedTokenAccount creationChain walletPublicKey QUOTE_MINT).chain.accountInfo
        buyPayer = some ⟨165⟩) ∧
    (countSubmitOps ((getOrCreateAssociatedTokenAccount creationChain walletPublicKey QUOTE_MINT).ops ++
        (getOrCreateAssociatedTokenAccount
          (getOrCreateAssociatedTokenAccount creationChain walletPublicKey QUOTE_MINT).chain
          walletPublicKey QUOTE_MINT).ops) = 1 ∧
      (getOrCreateAssociatedTokenAccount
        (getOrCreateAssociatedTokenAccount creationChain walletPublicKey QUOTE_MINT).chain
        walletPublicKey QUOTE_MINT).chain =
        (getOrCreateAssociatedTokenAccount creationChain walletPublicKey QUOTE_MINT).chain ∧
      (getOrCreateAssociatedTokenAccount
        (getOrCreateAssociatedTokenAccount creationChain walletPublicKey QUOTE_MINT).chain
        walletPublicKey QUOTE_MINT).result = .ok buyPayer) := by
  refine ⟨?_, ?_, ?_⟩
  · exact provisioner_idempotent.1 okChain walletPublicKey QUOTE_MINT ⟨776⟩ rfl
  · exact provisioner_idempotent.2.1 creationChain walletPublicKey QUOTE_MINT rfl rfl
  · exact provisioner_idempotent.2.2 creationChain walletPublicKey QUOTE_MINT rfl rfl

/-- C6: the order submitted by placeLimitOrder is funded by the settlement account
of the quote asset for a buy and of the base asset for a sell. -/
theorem order_payer_chosen_by_side :
    ∀ chain : Chain, ∀ now : Nat, ∀ market : Market, ∀ price size : Rat,
      (isErr (payerProvision chain Side.buy).result = false →
        ∃ args : OrderArgs,
          submittedOrder (placeLimitOrder chain now market Side.buy price size).ops = some args ∧
          args.payer = getAssociatedTokenAddressSync QUOTE_MINT walletPublicKey ∧
          args.side = Side.buy) ∧
      (isErr (payerProvision chain Side.sell).result = false →
        ∃ args : OrderArgs,
          submittedOrder (placeLimitOrder chain now market Side.sell price size).ops = some args ∧
          args.payer = getAssociatedTokenAddressSync BASE_MINT walletPublicKey ∧
          args.side = Side.sell) := by
  intro chain now market price size
  constructor
  · intro h
    exact ⟨_, placeLimitOrder_submitted chain now market Side.buy price size h, rfl, rfl⟩
  · intro h
    exact ⟨_, placeLimitOrder_submitted chain now market Side.sell price size h, rfl, rfl⟩

/-- C6 witness: on the succeeding stub the submitted buy order is funded by the
quote asset settlement account and the sell order by the base asset settlement
account. -/
theorem order_payer_chosen_by_side_witness :
    (∃ args : OrderArgs,
      submittedOrder (placeLimitOrder okChain 7 solUsdcMarket Side.buy 1 1).ops = some args ∧
      args.payer = getAssociatedTokenAddressSync QUOTE_MINT walletPublicKey ∧
      args.side = Side.buy) ∧
    (∃ args : OrderArgs,
      submittedOrder (placeLimitOrder okChain 7 solUsdcMarket Side.sell 1 1).ops = some args ∧
      args.payer = getAssociatedTokenAddressSync BASE_MINT walletPublicKey ∧
      args.side = Side.sell) :=
  ⟨(order_payer_chosen_by_side okChain 7 solUsdcMarket 1 1).1 rfl,
    (order_payer_chosen_by_side okChain 7 solUsdcMarket 1 1).2 rfl⟩

/-- C7: every submitted order has limit type, decrement and take self trade policy,
expiry exactly 60 seconds past the submission second, and a client order id
minted from the submission time, so orders submitted at distinct times carry
distinct identifiers. -/
theorem order_policy_parameters :
    (∀ chain : Chain, ∀ now : Nat, ∀ market : Market, ∀ side : Side, ∀ price size : Rat,
      isErr (payerProvision chain side).result = false →
      ∃ args : OrderArgs,
        submittedOrder (placeLimitOrder chain now market side price size).ops = some args ∧
        args.orderType = "limit" ∧
        args.selfTradeBehavior = "decrementTake" ∧
        args.expiryTimestamp = now / 1000 + 60 ∧
        args.clientOrderId = now) ∧
    (∀ chain : Chain, ∀ market : Market, ∀ side : Side, ∀ price size : Rat,
      ∀ t1 t2 : Nat, ∀ a1 a2 : OrderArgs, t1 ≠ t2 →
      submittedOrder (placeLimitOrder chain t1 market side price size).ops = some a1 →
      submittedOrder (placeLimitOrder chain t2 market side price size).ops = some a2 →
      a1.clientOrderId ≠ a2.clientOrderId) := by
  constructor
  · intro chain now market side price size h
    exact ⟨_, placeLimitOrder_submitted chain now market side price size h, rfl, rfl, rfl, rfl⟩
  · intro chain market side price size t1 t2 a1 a2 hne h1 h2
    have e1 := placeLimitOrder_submitted_clientOrderId chain t1 market side price size a1 h1
    have e2 := placeLimitOrder_submitted_clientOrderId chain t2 market side price size a2 h2
    rw [e1, e2]
    exact hne

/-- C7 witness: on the succeeding stub the submitted order carries the fixed policy
parameters, and the orders submitted at times 1 and 2 carry distinct client
order identifiers. -/
theorem order_policy_parameters_witness :
    (∃ args : OrderArgs,
      submittedOrder (placeLimitOrder okChain 12345 solUsdcMarket Side.buy 1 1).ops = some args ∧
      args.orderType = "limit" ∧
      args.selfTradeBehavior = "decrementTake" ∧
      args.expiryTimestamp = 12345 / 1000 + 60 ∧
      args.clientOrderId = 12345) ∧
    (orderArgsAt buyPayer Side.buy 1 1 1).clientOrderId ≠
      (orderArgsAt buyPayer Side.buy 1 1 2).clientOrderId := by
  constructor
  · exact order_policy_parameters.1 okChain 12345 solUsdcMarket Side.buy 1 1 rfl
  · exact order_policy_parameters.2 okChain solUsdcMarket Side.buy 1 1 1 2
      (orderArgsAt buyPayer Side.buy 1 1 1) (orderArgsAt buyPayer Side.buy 1 1 2)
      (by decide) rfl rfl

end SolBot
